import Mathlib

/-!
Verification development for the driving-school chatbot service (`server.js`).

The JavaScript source is shallowly embedded: strings are Lean `String`s
(lists of characters; every character that can reach the embedded code is a
single UTF-16 code unit, so JavaScript `.length` coincides with the character
count), records fetched from the data store are association lists from field
names to string values, and JavaScript numbers are modelled by exact
rationals (`ℚ`), which agrees with IEEE double arithmetic on every value the
embedded arithmetic produces.

Unicode-dependent primitives (`toLowerCase`, NFD normalization, the
combining-mark strip) are embedded by explicit character tables covering the
alphabet the service works with: ASCII, the Croatian letters ć č đ š ž and
the acute-accented vowels, in both cases.  Characters outside the tables are
left unchanged by the case/NFD maps and are then replaced by a space by the
character-class filter, exactly as in the source.
-/

set_option maxRecDepth 40000

namespace Testigo

/-! ## Character-level primitives -/

/-- Whitespace characters of the JavaScript `\s` class that can occur here. -/
def isWsChar (c : Char) : Bool :=
  c.toNat = 32 ∨ c.toNat = 9 ∨ c.toNat = 10 ∨ c.toNat = 13 ∨
  c.toNat = 11 ∨ c.toNat = 12 ∨ c.toNat = 160

/-- Combining diacritical marks, the range `[̀-ͯ]` stripped by
`softNorm`. -/
def isMark (c : Char) : Bool :=
  decide (768 ≤ c.toNat ∧ c.toNat ≤ 879)

/-- U+0301 combining acute accent. -/
def acuteMark : Char := '́'

/-- U+030C combining caron. -/
def caronMark : Char := '̌'

/-- One character of `s.toLowerCase().normalize('NFD')`: lower-case the
character and canonically decompose it.  Table covers ASCII and the accented
letters reachable in this service; other characters pass unchanged. -/
def jsLowerNFD (c : Char) : List Char :=
  if 65 ≤ c.toNat ∧ c.toNat ≤ 90 then [Char.ofNat (c.toNat + 32)]
  else if c.toNat = 0x107 ∨ c.toNat = 0x106 then ['c', acuteMark]    -- ć Ć
  else if c.toNat = 0x10D ∨ c.toNat = 0x10C then ['c', caronMark]    -- č Č
  else if c.toNat = 0x161 ∨ c.toNat = 0x160 then ['s', caronMark]    -- š Š
  else if c.toNat = 0x17E ∨ c.toNat = 0x17D then ['z', caronMark]    -- ž Ž
  else if c.toNat = 0x111 ∨ c.toNat = 0x110 then ['đ']               -- đ Đ (no NFD decomposition)
  else if c.toNat = 0xE1 ∨ c.toNat = 0xC1 then ['a', acuteMark]      -- á Á
  else if c.toNat = 0xE9 ∨ c.toNat = 0xC9 then ['e', acuteMark]      -- é É
  else if c.toNat = 0xED ∨ c.toNat = 0xCD then ['i', acuteMark]      -- í Í
  else if c.toNat = 0xF3 ∨ c.toNat = 0xD3 then ['o', acuteMark]      -- ó Ó
  else if c.toNat = 0xFA ∨ c.toNat = 0xDA then ['u', acuteMark]      -- ú Ú
  else [c]

/-- The character class kept by `replace(/[^a-z0-9ćčđšž\s]/gi, ' ')`. -/
def keepChar (c : Char) : Bool :=
  let n := c.toNat
  decide ((97 ≤ n ∧ n ≤ 122) ∨ (48 ≤ n ∧ n ≤ 57) ∨
    n = 0x107 ∨ n = 0x10D ∨ n = 0x111 ∨ n = 0x161 ∨ n = 0x17E) || isWsChar c

/-- The per-character pipeline of `softNorm`: lower-case + NFD, strip
combining marks, replace characters outside the kept class by a space. -/
def charPipe (c : Char) : List Char :=
  ((jsLowerNFD c).filter (fun d => !isMark d)).map
    (fun d => if keepChar d then d else ' ')

/-- Concatenation of `f` over a list (JavaScript `flatMap`). -/
def concatMap (f : α → List β) : List α → List β
  | [] => []
  | a :: l => f a ++ concatMap f l

/-- Split a character list at every character satisfying `p`, keeping empty
segments (the semantics of `String.prototype.split`). -/
def splitBy (p : Char → Bool) : List Char → List (List Char)
  | [] => [[]]
  | c :: rest =>
    if p c then [] :: splitBy p rest
    else
      match splitBy p rest with
      | [] => [[c]]
      | w :: ws => (c :: w) :: ws

/-- The non-empty whitespace-separated words of a character list. -/
def wordsOf (l : List Char) : List (List Char) :=
  (splitBy isWsChar l).filter (fun w => !w.isEmpty)

/-- Join words with single spaces. -/
def joinWords : List (List Char) → List Char
  | [] => []
  | [w] => w
  | w :: x :: ws => w ++ ' ' :: joinWords (x :: ws)

/-- `softNorm` of the source: lower-case, NFD-decompose, strip combining
marks, map everything outside `[a-z0-9ćčđšž\s]` to a space, collapse runs of
whitespace to single spaces and trim. -/
def softNorm (s : String) : String :=
  ⟨joinWords (wordsOf (concatMap charPipe s.data))⟩

/-- Substring search on character lists (`String.prototype.includes`). -/
def hasSubList (needle : List Char) : List Char → Bool
  | [] => needle.isEmpty
  | c :: rest => needle.isPrefixOf (c :: rest) || hasSubList needle rest

/-- `a.includes(b)` for strings. -/
def containsSub (hay needle : String) : Bool :=
  hasSubList needle.data hay.data

/-- `a.startsWith(b)` for strings. -/
def startsWithSub (hay needle : String) : Bool :=
  needle.data.isPrefixOf hay.data

/-- `String.prototype.trim`. -/
def jsTrim (s : String) : String :=
  ⟨((s.data.dropWhile isWsChar).reverse.dropWhile isWsChar).reverse⟩

/-- `toUpperCase` restricted to the alphabet used here. -/
def jsUpperChar (c : Char) : Char :=
  let n := c.toNat
  if 97 ≤ n ∧ n ≤ 122 then Char.ofNat (n - 32)
  else if n = 0x107 then 'Ć'
  else if n = 0x10D then 'Č'
  else if n = 0x111 then 'Đ'
  else if n = 0x161 then 'Š'
  else if n = 0x17E then 'Ž'
  else c

/-- `String.prototype.toUpperCase`. -/
def jsToUpper (s : String) : String := ⟨s.data.map jsUpperChar⟩

/-- `toLowerCase` restricted to the alphabet used here. -/
def jsLowerChar (c : Char) : Char :=
  let n := c.toNat
  if 65 ≤ n ∧ n ≤ 90 then Char.ofNat (n + 32)
  else if n = 0x106 then 'ć'
  else if n = 0x10C then 'č'
  else if n = 0x110 then 'đ'
  else if n = 0x160 then 'š'
  else if n = 0x17D then 'ž'
  else c

/-- `String.prototype.toLowerCase`. -/
def jsToLower (s : String) : String := ⟨s.data.map jsLowerChar⟩

/-- JavaScript `\w` (ASCII word character), used by the `\b` boundary. -/
def isWordChar (c : Char) : Bool :=
  let n := c.toNat
  decide ((65 ≤ n ∧ n ≤ 90) ∨ (97 ≤ n ∧ n ≤ 122) ∨ (48 ≤ n ∧ n ≤ 57) ∨ n = 95)

/-- Does `tok` occur at the head of `l` with word boundaries on both sides,
`prev` being the character just before `l` (if any)? -/
def wbHere (tok : List Char) (prev : Option Char) (l : List Char) : Bool :=
  tok.isPrefixOf l &&
    (match prev with | none => true | some c => !isWordChar c) &&
    (match l.drop tok.length with | [] => true | c :: _ => !isWordChar c)

/-- Scan for a word-boundary-delimited occurrence of `tok`. -/
def wbScan (tok : List Char) (prev : Option Char) : List Char → Bool
  | [] => wbHere tok prev []
  | c :: rest => wbHere tok prev (c :: rest) || wbScan tok (some c) rest

/-- The test `new RegExp('\\b' + tok + '\\b').test(s)` for a literal token. -/
def hasTokWB (tok s : String) : Bool :=
  wbScan tok.data none s.data

/-! ## JavaScript numbers -/

/-- Numeric value of a digit run. -/
def natOfDigits (l : List Char) : ℕ :=
  l.foldl (fun a c => 10 * a + (c.toNat - 48)) 0

/-- Exponent part accepted after `e`/`E` by `parseFloat`: optional sign and a
digit run; an empty digit run invalidates the exponent (JavaScript then stops
parsing before the `e`). -/
def parseExp (l : List Char) : Option ℤ :=
  let (sgn, l1) : ℤ × List Char :=
    match l with
    | '-' :: r => (-1, r)
    | '+' :: r => (1, r)
    | _ => (1, l)
  let ds := l1.takeWhile Char.isDigit
  if ds.isEmpty then none else some (sgn * natOfDigits ds)

/-- `parseFloat`: skip leading whitespace, optional sign, decimal digits with
optional fraction and exponent; `none` models `NaN`.  Exact over `ℚ`, which
coincides with the IEEE result for every comparison made by this service. -/
def jsParseFloat (s : String) : Option ℚ :=
  let l0 := s.data.dropWhile isWsChar
  let (sgn, l1) : ℚ × List Char :=
    match l0 with
    | '-' :: r => (-1, r)
    | '+' :: r => (1, r)
    | _ => (1, l0)
  let ip := l1.takeWhile Char.isDigit
  let l2 := l1.drop ip.length
  let (fp, l3) : List Char × List Char :=
    match l2 with
    | '.' :: r => (r.takeWhile Char.isDigit, r.drop (r.takeWhile Char.isDigit).length)
    | _ => ([], l2)
  if ip.isEmpty && fp.isEmpty then none
  else
    let mant : ℚ := (natOfDigits (ip ++ fp) : ℚ) / 10 ^ fp.length
    let e : ℤ :=
      match l3 with
      | c :: r => if c = 'e' ∨ c = 'E' then (parseExp r).getD 0 else 0
      | [] => 0
    some (sgn * mant * (10 : ℚ) ^ e)

/-- `Math.round`: round half toward positive infinity. -/
def jsRound (q : ℚ) : ℤ := ⌊q + 1 / 2⌋

/-- Decimal rendering of the number-to-string conversion for the values this
service prints (finite decimals); integers print without a point. -/
def ratDecString (q : ℚ) : String :=
  if q.den = 1 then toString q.num
  else
    let sgn := if q < 0 then "-" else ""
    let a : ℚ := |q|
    match (List.range 21).find? (fun k => ((a * 10 ^ k : ℚ).den = 1 : Bool)) with
    | some k =>
      let m := (a * 10 ^ k).num.toNat
      let ipart := m / 10 ^ k
      let fpart := m % 10 ^ k
      let fstr := toString fpart
      let pad := String.mk (List.replicate (k - fstr.length) '0')
      sgn ++ toString ipart ++ "." ++ pad ++ fstr
    | none => sgn ++ toString a.num ++ "/" ++ toString a.den

/-! ## Records from the data store

A fetched row is an association list from field names to string values;
`none` models an absent field, the empty string a present-but-empty one
(JavaScript distinguishes them only under `??`). -/

/-- A record ("row") fetched from a table. -/
abbrev Row := List (String × String)

/-- `r[k]` as an optional value. -/
def fieldOf (r : Row) (k : String) : Option String :=
  (r.find? (fun p => p.1 = k)).map (·.2)

/-- `norm(r[k])`: the field's string, `''` when absent. -/
def fld (r : Row) (k : String) : String := (fieldOf r k).getD ""

/-- `norm(r[k1] || r[k2] || ...)`: first truthy (non-empty) field. -/
def fldOr (r : Row) : List String → String
  | [] => ""
  | k :: ks => let v := fld r k; if v = "" then fldOr r ks else v

/-- `norm(r[k1] || ... || default)` with a non-empty literal default. -/
def fldOrD (r : Row) (ks : List String) (dflt : String) : String :=
  let v := fldOr r ks
  if v = "" then dflt else v

/-- The per-tenant data bundle keyed by the `TABLES` map. -/
structure DataBundle where
  kategorije : List Row := []
  cjenik : List Row := []
  hak : List Row := []
  uvjeti : List Row := []
  dodatne : List Row := []
  instruktori : List Row := []
  vozni : List Row := []
  lokacije : List Row := []
  nastava : List Row := []
  upisi : List Row := []
  faq : List Row := []

/-- Join non-empty strings with a separator (`[...].filter(Boolean).join(sep)`). -/
def joinSep (sep : String) (l : List String) : String :=
  ⟨List.intercalate sep.data (((l.filter (fun s => s ≠ "")).map String.data))⟩

/-- `list.join(sep)` without filtering. -/
def joinAll (sep : String) (l : List String) : String :=
  ⟨List.intercalate sep.data (l.map String.data)⟩

/-- `normSlug`: trim and lower-case. -/
def normSlug (v : String) : String := jsToLower (jsTrim v)

/-! ## Currency helpers -/

/-- String version used all over the source: `v1.6`. -/
def promptVersion : String := "v1.6"

/-- `convertToEuro`: pass euro amounts through, convert `kn` amounts with the
fixed divisor 7.5345 and round, append `€` to bare numbers. -/
def convertToEuro (value : String) : String :=
  let v := jsTrim value
  if v = "" then ""
  else if containsSub v "€" then v
  else if containsSub (jsToLower v) "kn" then
    match jsParseFloat v with
    | none => v
    | some num => toString (jsRound (num / (75345 / 10000 : ℚ))) ++ " €"
  else
    match jsParseFloat v with
    | none => v
    | some num => ratDecString num ++ " €"

/-- `calcMonthlyRate`: twelfth of the parsed amount, rounded. -/
def calcMonthlyRate (raw : String) : String :=
  match jsParseFloat raw with
  | none => "—"
  | some num => toString (jsRound (num / 12)) ++ " €/mj"

/-! ## Category normalization -/

/-- The uppercased soft-normalized key `normalizeKat` matches against. -/
def katKey (value : String) : String := jsToUpper (softNorm value)

/-- The word-boundary token loop of `normalizeKat`. -/
def findTok : List String → String → String
  | [], _ => ""
  | k :: ks, s => if hasTokWB k s then k else findTok ks s

/-- `normalizeKat`: special substring-matched codes first (`KOD 95`,
`KOD 96`, `BE`), then standard codes with word boundaries. -/
def normalizeKat (value : String) : String :=
  let s := katKey value
  if s = "" then ""
  else if containsSub s "KOD 95" || containsSub s "CODE 95" then "KOD 95"
  else if containsSub s "KOD 96" || containsSub s "CODE 96" then "KOD 96"
  else if containsSub s "BE" then "BE"
  else findTok ["AM", "A1", "A2", "A", "B", "C", "CE", "D", "F", "G"] s

/-! ## Token-overlap scorer -/

/-- `q.split(' ')` on a string (single-space separator, as in the source;
`softNorm` output only ever contains single spaces). -/
def spaceSplit (s : String) : List String :=
  (splitBy (fun c => c = ' ') s.data).map (fun w => (⟨w⟩ : String))

/-- The non-empty tokens of the normalized string (`split(' ').filter(Boolean)`). -/
def normTokens (s : String) : List String :=
  (spaceSplit (softNorm s)).filter (fun w => w ≠ "")

/-- `wordSet`: deduplicated normalized words of length at least 3.  A
JavaScript `Set` is modelled by a deduplicated list; only membership and
cardinality are ever used. -/
def wordSet (s : String) : List String :=
  ((spaceSplit (softNorm s)).filter (fun w => 3 ≤ w.length)).dedup

/-- Result record of `overlapScore`. -/
structure OvScore where
  overlap : ℕ
  qsSize : ℕ
  csSize : ℕ
  jaccard : ℚ
  deriving Repr, DecidableEq

/-- `overlapScore`: intersection size of the two word sets and the Jaccard
index with denominator floored at 1. -/
def overlapScore (q candidate : String) : OvScore :=
  let qs := wordSet q
  let cs := wordSet candidate
  let overlap := (qs.filter (fun w => cs.contains w)).length
  let denom := let d := qs.length + cs.length - overlap; if d = 0 then 1 else d
  let jaccard : ℚ := if qs.length = 0 then 0 else (overlap : ℚ) / denom
  ⟨overlap, qs.length, cs.length, jaccard⟩

/-- Overlap of a (normalized) query with a candidate phrase. -/
def faqOv (q c : String) : ℕ := (overlapScore q c).overlap

/-- Jaccard index of a (normalized) query with a candidate phrase. -/
def faqJc (q c : String) : ℚ := (overlapScore q c).jaccard

/-! ## FAQ matcher -/

/-- Collapse `\r\n` to `\n` (the `\r?\n` alternative of the split regexes). -/
def crlfToLf : List Char → List Char
  | [] => []
  | '\r' :: '\n' :: rest => '\n' :: crlfToLf rest
  | c :: rest => c :: crlfToLf rest

/-- `splitMulti`: split on newlines and pipes, then commas, trim, drop
empties. -/
def splitMulti (s : String) : List String :=
  ((splitBy (fun c => c = '\n' ∨ c = '|') (crlfToLf s.data)).flatMap
      (fun x => splitBy (fun c => c = ',') x)).map (fun w => jsTrim ⟨w⟩)
    |>.filter (fun w => w ≠ "")

/-- The active-record filter `String(r['AKTIVNO'] ?? r['Aktivno'] ?? true) !== 'false'`. -/
def faqActive (r : Row) : Bool :=
  (match fieldOf r "AKTIVNO" with
   | some v => v
   | none =>
     match fieldOf r "Aktivno" with
     | some v => v
     | none => "true") ≠ "false"

/-- Candidate phrases of one FAQ record. -/
def faqQList (r : Row) : List String :=
  (splitMulti (fldOr r ["PITANJA", "Pitanja", "Pitanje"]) ++
   splitMulti (fldOr r ["Primjeri upita", "Primjer upita"]) ++
   splitMulti (fldOr r ["Ključne riječi", "Kljucne rijeci"])).filter (fun w => w ≠ "")

/-- Answer field of a FAQ record. -/
def faqAns (r : Row) : String := fldOr r ["ODGOVORI", "Odgovor", "Odgovori"]

/-- The `almostExact` flag: mutual containment of the normalized strings with
the shorter one at least 10 characters long.  `q` is already normalized. -/
def faqAlmostExact (q cand : String) : Bool :=
  softNorm cand ≠ "" &&
    (containsSub q (softNorm cand) || containsSub (softNorm cand) q) &&
    decide (10 ≤ min q.length (softNorm cand).length)

/-- The `goodMatch` disjunction of the FAQ matcher. -/
def faqGoodMatch (q cand : String) : Bool :=
  faqAlmostExact q cand ||
  (decide (3 ≤ faqOv q cand) && decide ((2 / 5 : ℚ) ≤ faqJc q cand)) ||
  (decide (2 ≤ faqOv q cand) && decide ((1 / 4 : ℚ) ≤ faqJc q cand) &&
    decide ((overlapScore q cand).qsSize ≤ 6))

/-- Running best match of the FAQ loop. -/
structure FaqBest where
  score : ℕ
  jaccard : ℚ
  ans : String
  deriving Repr, DecidableEq

/-- Initial best: zero score, empty answer. -/
def faqInit : FaqBest := ⟨0, 0, ""⟩

/-- One candidate step of the FAQ loop: improve the running best on a good
match that beats it on overlap, with Jaccard as tiebreak. -/
def faqStep (q ans : String) (best : FaqBest) (cand : String) : FaqBest :=
  if faqGoodMatch q cand = true ∧
      (best.score < faqOv q cand ∨
        (faqOv q cand = best.score ∧ best.jaccard < faqJc q cand)) then
    ⟨faqOv q cand, faqJc q cand, ans⟩
  else best

/-- One record of the FAQ loop: skip records with an empty answer, otherwise
fold over all candidate phrases. -/
def faqScanRow (q : String) (best : FaqBest) (r : Row) : FaqBest :=
  if faqAns r = "" then best
  else (faqQList r).foldl (faqStep q (faqAns r)) best

/-- The short-query guard of the FAQ matcher: at most 3 non-empty tokens of
the normalized query, or fewer than 12 characters. -/
abbrev faqShortQuery (userText : String) : Prop :=
  ((spaceSplit (softNorm userText)).filter (fun w => w ≠ "")).length ≤ 3 ∨
    (softNorm userText).length < 12

/-- `answerFromFAQ_STRICT`: guard against short queries, then return the
best good-matching candidate's answer. -/
def answerFromFAQ_STRICT (userText : String) (faqRows : List Row) : String :=
  if faqRows.isEmpty then ""
  else if faqShortQuery userText then ""
  else if ((faqRows.filter faqActive).foldl (faqScanRow (softNorm userText)) faqInit).score ≠ 0 then
    ((faqRows.filter faqActive).foldl (faqScanRow (softNorm userText)) faqInit).ans
  else ""

/-! ## Category/price gate -/

/-- The category-token regex `\b(am|a1|a2|a|b|be|c|ce|d|kod\s*95|kod\s*96)\b`
on the normalized query, where whitespace runs are single spaces. -/
def hasKatToken (q : String) : Bool :=
  (["am", "a1", "a2", "a", "b", "be", "c", "ce", "d",
    "kod 95", "kod95", "kod 96", "kod96"]).any (fun k => hasTokWB k q)

/-- The business-vocabulary regex of `isCategoryOrPriceQuery` (substring
matches; `\s*` alternations expand to the spaced and unspaced form). -/
def hasBizWords (q : String) : Bool :=
  (["cijena", "cijene", "koliko kosta", "kolikokosta", "kosta", "sati",
    "satnica", "hak", "naknad", "paket", "minimalna dob", "minimalnadob",
    "uvjeti upisa", "uvjetiupisa", "vozni park", "voznipark", "vozila",
    "informacij", "upis", "teorij", "praksa", "voznj", "dodatni sat",
    "dodatnisat", "dopunski sat", "dopunskisat"]).any (fun w => containsSub q w)

/-- `isCategoryOrPriceQuery`: category token or business vocabulary. -/
def isCategoryOrPriceQuery (s : String) : Bool :=
  let q := softNorm s
  (hasKatToken q || containsSub q "kategor") || hasBizWords q

/-! ## Vehicles -/

/-- The filter predicate of `listVehicles`. -/
def vehKeep (wanted locHint : String) (r : Row) : Bool :=
  let katRaw := fldOr r ["Kategorija", "Namjena (kategorija)", "Kategorija_ref"]
  let k := normalizeKat katRaw
  if wanted ≠ "" ∧ k ≠ wanted then false
  else if locHint ≠ "" then
    let hay := softNorm (joinAll " "
      [fld r "Lokacija", fld r "LOKACIJA", fld r "Napomena",
       fld r "Naziv vozila", fld r "Model", fld r "Naziv"])
    containsSub hay locHint
  else true

/-- One formatted vehicle line. -/
def vehLine (r : Row) : String :=
  let katRaw := fldOr r ["Kategorija", "Kategorija_ref"]
  let kat := let k := normalizeKat katRaw; if k = "" then katRaw else k
  let model := fldOr r ["Naziv vozila", "Model", "Naziv"]
  let tip := fldOr r ["Tip vozila", "Tip", "Vrsta vozila"]
  let god := fld r "Godina"
  let mjenjac := fldOr r ["Mjenjač", "Mjenjac"]
  let lok := fldOr r ["Lokacija", "LOKACIJA"]
  "• " ++ (if kat ≠ "" then "[" ++ kat ++ "] " else "") ++
    (if model ≠ "" then model else tip) ++
    (if god ≠ "" then " (" ++ god ++ ")" else "") ++
    (if mjenjac ≠ "" then " – " ++ mjenjac else "") ++
    (if lok ≠ "" then " | " ++ lok else "")

/-- `listVehicles`: filter by category and location hint, format, cap at 30
lines with a counting suffix. -/
def listVehicles (rows : List Row) (wantedKat locationHint : String) : String :=
  if rows.isEmpty then ""
  else
    let wanted := if wantedKat = "" then "" else jsToUpper wantedKat
    let locHint := softNorm locationHint
    let items := (rows.filter (vehKeep wanted locHint)).map vehLine
    let extra :=
      if 30 < items.length then "\n…i još " ++ toString (items.length - 30) ++ " vozila."
      else ""
    joinAll "\n" (items.take 30) ++ extra

/-! ## Locations -/

/-- `locTypeOfRow`: normalized "location kind" field. -/
def locTypeOfRow (r : Row) : String :=
  softNorm (fldOr r ["Tip lokacije", "Tip", "Vrsta", "TIP"])

/-- The normalized haystack of a location record. -/
def locHay (r : Row) : String :=
  softNorm (joinAll " "
    [fld r "Tip lokacije", fld r "Tip", fld r "Vrsta", fld r "Naziv",
     fld r "Naziv ustanove / partnera", fld r "Adresa", fld r "Lokacija",
     fld r "Mjesto", fld r "Grad", fld r "Napomena"])

/-- The score of one location record: +2 per (already normalized) keyword in
the haystack, +2 more per keyword the location kind starts with. -/
def locScore (keys : List String) (r : Row) : ℕ :=
  let hay := locHay r
  let t := locTypeOfRow r
  2 * (keys.filter (fun k => k ≠ "" ∧ containsSub hay k)).length +
  2 * (keys.filter (fun k => k ≠ "" ∧ startsWithSub t k)).length

/-- One step of the best-location loop (`score > bestScore` wins). -/
def bestLocStep (keys : List String) (acc : Option Row × ℤ) (r : Row) :
    Option Row × ℤ :=
  if acc.2 < (locScore keys r : ℤ) then (some r, (locScore keys r : ℤ)) else acc

/-- `findBestLocation`: highest-scoring record if its score is positive. -/
def findBestLocation (rows : List Row) (wantTypeKeywords : List String) :
    Option Row :=
  if rows.isEmpty then none
  else if 0 < (rows.foldl (bestLocStep (wantTypeKeywords.map softNorm)) (none, -1)).2 then
    (rows.foldl (bestLocStep (wantTypeKeywords.map softNorm)) (none, -1)).1
  else none

/-- `formatLocationRow`: name, address/city, phone, map link. -/
def formatLocationRow (row : Row) : String :=
  let naziv := fldOrD row ["Naziv ustanove / partnera", "Naziv"] "Lokacija"
  let adresa := fldOr row ["Adresa", "Lokacija"]
  let grad := fldOr row ["Mjesto", "Grad"]
  let tel := fldOr row ["Telefon", "Tel", "Kontakt"]
  let url := fldOr row ["Geo_URL", "URL", "Maps", "Google Maps", "Link na Google Maps"]
  joinSep "\n"
    ["• " ++ naziv,
     (if adresa ≠ "" then "  " ++ adresa ++ (if grad ≠ "" then ", " ++ grad else "")
      else if grad ≠ "" then "  " ++ grad else ""),
     (if tel ≠ "" then "  T: " ++ tel else ""),
     (if url ≠ "" then "  Mapa: " ++ url else "")]

/-- `extractSchoolLocationsFromSchoolRow`: multiline location description of
the school row, or its base address. -/
def extractSchoolLocationsFromSchoolRow (school : Row) : String :=
  let raw := fldOr school
    ["Opis lokacije", "Opis lokacija", "Opis", "Lokacije", "Opis poslovnica"]
  let adr := fld school "Adresa"
  let maps := fldOr school ["Google Maps", "Maps", "Geo_URL", "Link na Google Maps"]
  let lines := ((splitBy (fun c => c = '\n') (crlfToLf raw.data)).map
      (fun x => jsTrim ⟨x⟩)).filter (fun x => x ≠ "")
  if lines.isEmpty then
    let base := joinSep "\n"
      [(if adr ≠ "" then "• " ++ adr else ""),
       (if maps ≠ "" then "  Mapa: " ++ maps else "")]
    if base ≠ "" then "📍 Lokacije:\n" ++ base else ""
  else "📍 Lokacije:\n" ++ joinAll "\n" (lines.map (fun l => "• " ++ l))

/-! ## Payment terms, additional hours, instructors -/

/-- `uvjetiText`: explicit description of the first record, or pipe-joined
key facts. -/
def uvjetiText (rows : List Row) : String :=
  match rows with
  | [] => ""
  | f :: _ =>
    let explicit := fldOr f ["Opis uvjeta", "Opis"]
    if explicit ≠ "" then explicit
    else joinSep " | "
      [(if fld f "Vrste plaćanja" ≠ "" then "Vrste plaćanja: " ++ fld f "Vrste plaćanja" else ""),
       (if fld f "Načini_plaćanja" ≠ "" then "Načini plaćanja: " ++ fld f "Načini_plaćanja" else ""),
       (if fld f "Rate_mogućnost" ≠ "" then "Rate: " ++ fld f "Rate_mogućnost" else ""),
       (if fld f "Avans" ≠ "" then "Avans: " ++ fld f "Avans" else ""),
       (if fld f "Rokovi" ≠ "" then "Rokovi: " ++ fld f "Rokovi" else "")]

/-- The "looks like an extra hour" heuristic of `findAdditionalHoursRows`. -/
def looksLikeExtra (r : Row) : Bool :=
  let naziv := softNorm (fldOr r ["Naziv usluge", "Naziv", "Usluga"])
  let vrsta := softNorm (fldOr r ["VRSTA FAQ", "Vrsta", "Tip"])
  (containsSub naziv "dodatni" && containsSub naziv "sat") ||
  (containsSub naziv "dopunski" && containsSub naziv "sat") ||
  (containsSub naziv "sat" && containsSub naziv "vozn") ||
  containsSub vrsta "dodatni" || containsSub vrsta "sat"

/-- `findAdditionalHoursRows`: extra-hour services for a category. -/
def findAdditionalHoursRows (rows : List Row) (kat : String) : List Row :=
  let K := jsToUpper kat
  if rows.isEmpty ∨ K = "" then []
  else rows.filter (fun r =>
    let k := normalizeKat (fldOr r ["Kategorija", "Namjena (kategorija)", "Kategorija_ref"])
    if k ≠ "" ∧ k ≠ K then false else looksLikeExtra r)

/-- Insertion-ordered grouping (a JavaScript `Map`). -/
def addGroup (gs : List (String × List Row)) (loc : String) (r : Row) :
    List (String × List Row) :=
  match gs with
  | [] => [(loc, [r])]
  | (k, v) :: rest =>
    if k = loc then (k, v ++ [r]) :: rest else (k, v) :: addGroup rest loc r

/-- `groupInstruktoriByLokacija`: group instructor rows by location tag. -/
def groupInstruktoriByLokacija (rows : List Row) : List (String × List Row) :=
  rows.foldl (fun gs r =>
    let loc :=
      let l := jsTrim (fldOr r ["LOKACIJA", "Lokacija", "Poslovnica"])
      if l = "" then "Ostalo" else l
    addGroup gs loc r) []

/-! ## Category summary -/

/-- `buildCategorySummary`: hours, prices (with euro conversion and monthly
installment), exam fees, payment terms and extra hours for one category. -/
def buildCategorySummary (katRaw : String) (data : DataBundle) : String :=
  let kat := normalizeKat katRaw
  if kat = "" then ""
  else
    let satnica :=
      match data.kategorije.find?
          (fun r => normalizeKat (fldOr r ["Kategorija", "Naziv"]) = kat) with
      | none => ""
      | some rowK =>
        let te := fldOr rowK ["Broj sati teorija", "Broj_sati_teorija"]
        let pr := fldOr rowK ["Broj sati praksa", "Broj_sati_praksa"]
        let trajanje := fld rowK "Trajanje (tipično)"
        let minDob := fldOr rowK ["Minimalna dob", "Minimalna_dob"]
        let uvjetiUpisa := fldOr rowK ["Uvjeti upisa", "Uvjeti_upisa"]
        let s0 := "• Sati: Teorija " ++ (if te ≠ "" then te else "?") ++
          "h, Praksa " ++ (if pr ≠ "" then pr else "?") ++ "h" ++
          (if trajanje ≠ "" then " | Trajanje (tipično): " ++ trajanje else "")
        let s1 := if minDob ≠ "" then s0 ++ "\n• Minimalna dob: " ++ minDob ++ " godina" else s0
        if uvjetiUpisa ≠ "" then s1 ++ "\n• Uvjeti upisa: " ++ uvjetiUpisa else s1
    let cj := joinAll "\n"
      ((data.cjenik.filter (fun c => normalizeKat (fld c "Kategorija") = kat)).map
        (fun c =>
          let varijanta := fldOrD c ["Varijanta", "Naziv"] "Paket"
          let cijenaRaw := fld c "Cijena"
          let cijena := let x := convertToEuro cijenaRaw; if x = "" then "—" else x
          let mjRata := calcMonthlyRate cijenaRaw
          let nap := fld c "Napomena"
          "  - " ++ varijanta ++ ": " ++ cijena ++ " (" ++ mjRata ++ ")" ++
            (if nap ≠ "" then " — " ++ nap else "")))
    let cjSekcija := if cj ≠ "" then "• Cijene:\n" ++ cj else ""
    let hak := joinAll "\n"
      ((data.hak.filter (fun n => normalizeKat (fld n "Kategorija") = kat)).map
        (fun n =>
          let vrsta := fldOrD n ["Vrsta predmeta", "Naziv naknade", "Naziv"] "Naknada"
          let iznos := convertToEuro (fld n "Iznos")
          "  - " ++ vrsta ++ ": " ++ iznos))
    let hakSekcija := if hak ≠ "" then "• Ispitne naknade (HAK):\n" ++ hak else ""
    let uvjeti := uvjetiText data.uvjeti
    let uvjetiSekcija := if uvjeti ≠ "" then "• Uvjeti plaćanja: " ++ uvjeti else ""
    let dodatni := joinAll "\n"
      ((findAdditionalHoursRows data.dodatne kat).map
        (fun d =>
          let iznos := convertToEuro (fldOr d ["Iznos", "Cijena"])
          let naziv := fldOrD d ["Naziv usluge", "Naziv"] "Dodatni sat"
          "  - " ++ naziv ++ ": " ++ (if iznos ≠ "" then iznos else "—")))
    let dodatniSekcija := if dodatni ≠ "" then "• Dodatni sati:\n" ++ dodatni else ""
    joinSep "\n"
      ["✅ KATEGORIJA " ++ kat, satnica, cjSekcija, hakSekcija, uvjetiSekcija,
       dodatniSekcija]

/-! ## Fact extractor / intent router -/

/-- Trigger of the school-locations handler (handler 0). -/
def locTrigger (t : String) : Bool :=
  containsSub t "gdje poslujete" || containsSub t "gdje ste" ||
  containsSub t "gdje se nalazite" || containsSub t "lokacije" ||
  (containsSub t "adresa" && !containsSub t "hak") || containsSub t "poslovnica"

/-- Engine-type sub-trigger of the instructor handler. -/
def benzinTrigger (t : String) : Bool :=
  containsSub t "benzin" || containsSub t "dizel" || containsSub t "diesel" ||
  containsSub t "vrsta motora"

/-- One instructor line of the engine-type listing. -/
def instrBenzinLine (r : Row) : String :=
  let ime := fldOr r ["Ime i prezime instruktora", "Ime i prezime", "Instruktor"]
  let vozilo := fldOr r ["Vozilo koje koristi", "Vozilo"]
  let nap := fldOr r ["NAPOMENA", "Napomena"]
  let lok := fldOr r ["LOKACIJA", "Lokacija"]
  if ime ≠ "" ∨ vozilo ≠ "" ∨ nap ≠ "" then
    "• " ++ ime ++ (if lok ≠ "" then " (" ++ lok ++ ")" else "") ++
      (if vozilo ≠ "" then " – " ++ vozilo else "") ++
      (if nap ≠ "" then " | " ++ nap else "")
  else ""

/-- One grouped instructor line of the `hajduk` listing. -/
def instrHajdukLine (r : Row) : String :=
  let ime := fldOr r ["Ime i prezime instruktora", "Ime i prezime", "Instruktor"]
  let kat := fld r "Kategorije"
  let vozilo := fldOr r ["Vozilo koje koristi", "Vozilo"]
  "  • " ++ ime ++ (if kat ≠ "" then " – " ++ kat else "") ++
    (if vozilo ≠ "" then " | " ++ vozilo else "")

/-- One instructor line of the default listing. -/
def instrStdLine (r : Row) : String :=
  let ime := fldOr r ["Ime i prezime instruktora", "Ime i prezime", "Instruktor"]
  let kat := fld r "Kategorije"
  let vozilo := fldOr r ["Vozilo koje koristi", "Vozilo"]
  if ime ≠ "" ∨ kat ≠ "" ∨ vozilo ≠ "" then
    "• " ++ ime ++ (if kat ≠ "" then " – " ++ kat else "") ++
      (if vozilo ≠ "" then " | " ++ vozilo else "")
  else ""

/-- The instructor handler (handler 1): every path inside the source's
`if (t.includes('instruktor'))` block returns, including the empty string
when the instructor table (or the formatted list) is empty. -/
def instruktoriHandler (t : String) (rows : List Row) (slug : String) : String :=
  if rows.isEmpty then ""
  else if benzinTrigger t then
    let lines := ((rows.map instrBenzinLine).filter (fun l => l ≠ "")).take 80
    if lines.isEmpty then ""
    else "INSTRUKTORI (napomene o vozilu/motoru):\n" ++ joinAll "\n" lines
  else if normSlug slug = "hajduk" then
    let out := (groupInstruktoriByLokacija rows).foldl
      (fun out p =>
        let lines := (p.2.map instrHajdukLine).filter (fun l => l ≠ "")
        if lines.isEmpty then out
        else out ++ ["📍 " ++ p.1 ++ "\n" ++ joinAll "\n" lines]) []
    if out.isEmpty then "" else "INSTRUKTORI PO LOKACIJI:\n\n" ++ joinAll "\n\n" out
  else
    let lines := ((rows.map instrStdLine).filter (fun l => l ≠ "")).take 80
    if lines.isEmpty then "" else "INSTRUKTORI:\n" ++ joinAll "\n" lines

/-- Trigger of the category-summary handler (handler 2). -/
def sveInfoTrigger (t : String) : Bool :=
  containsSub t "sve info" || containsSub t "sve informacije" ||
  containsSub t "cijene" || containsSub t "sati" || containsSub t "hak" ||
  containsSub t "paket"

/-- Trigger of the exam-center handler. -/
def hakTrigger (t : String) : Bool :=
  containsSub t "hak" || containsSub t "ispitni centar"

/-- Exam-center handler output. -/
def hakLocOut (rows : List Row) : String :=
  match findBestLocation rows ["hak", "ispitni", "centar"] with
  | some row => "HAK / ISPITNI CENTAR:\n" ++ formatLocationRow row
  | none => ""

/-- Trigger of the first-aid handler. -/
def ppTrigger (t : String) : Bool :=
  containsSub t "prva pomoc" || containsSub t "prva pomoć"

/-- First-aid handler output. -/
def ppLocOut (rows : List Row) : String :=
  match findBestLocation rows ["prva pomoc", "prva pomoć", "crveni kriz", "crveni križ"] with
  | some row => "PRVA POMOĆ:\n" ++ formatLocationRow row
  | none => ""

/-- Trigger of the medical-exam handler. -/
def lijecTrigger (t : String) : Bool :=
  containsSub t "lijecnick" || containsSub t "liječnič" ||
  containsSub t "medicina rada" || containsSub t "pregled"

/-- Medical-exam handler output. -/
def lijecLocOut (rows : List Row) : String :=
  match findBestLocation rows ["medicina rada", "lijecnick", "liječnič", "pregled"] with
  | some row => "LIJEČNIČKI PREGLED:\n" ++ formatLocationRow row
  | none => ""

/-- Trigger of the practice-ground handler. -/
def poligonTrigger (t : String) : Bool :=
  containsSub t "poligon" || containsSub t "vjezbali" || containsSub t "vježbali"

/-- Practice-ground handler output. -/
def poligonLocOut (rows : List Row) : String :=
  match findBestLocation rows ["poligon", "vježbali", "vjezbali"] with
  | some row => "POLIGON:\n" ++ formatLocationRow row
  | none => ""

/-- Trigger of the payment-terms handler (handler 4; the source tests
`kartic` twice). -/
def payTrigger (t : String) : Bool :=
  containsSub t "kartic" || containsSub t "kartic" || containsSub t "rate" ||
  containsSub t "plaćan" || containsSub t "placan"

/-- Payment-terms handler output. -/
def payOut (data : DataBundle) : String :=
  let u := uvjetiText data.uvjeti
  if u ≠ "" then "UVJETI PLAĆANJA:\n" ++ u else ""

/-- Trigger of the fleet handler (handler 5). -/
def vozniTrigger (t : String) : Bool :=
  containsSub t "vozni park" || containsSub t "vozila"

/-- The location hint detected by the fleet handler. -/
def vozniLocHint (t : String) : String :=
  if containsSub t "brac" || containsSub t "brač" then "brač"
  else if containsSub t "supetar" then "supetar"
  else if containsSub t "kaštel" || containsSub t "kastel" then "kaštel"
  else if containsSub t "trstenik" then "trstenik"
  else if containsSub t "grad" then "grad"
  else ""

/-- Fleet handler output. -/
def vozniOut (t wantedKat : String) (data : DataBundle) : String :=
  let locHint := vozniLocHint t
  let wanted := wantedKat
  let list := listVehicles data.vozni wanted locHint
  if list ≠ "" then
    "VOZNI PARK" ++ (if wanted ≠ "" then " – Kategorija " ++ wanted else "") ++
      (if locHint ≠ "" then " (" ++ locHint ++ ")" else "") ++ ":\n" ++ list
  else ""

/-- `extractFacts`, transcribed with the source's early-return structure:
handler 0 falls through when it produces nothing, the instructor block
returns whatever it produces (even the empty string), the remaining handlers
fall through on empty output. -/
def extractFacts (userText : String) (data : DataBundle) (school : Row)
    (slug : String) : String :=
  let t := softNorm userText
  let s0 := if locTrigger t then extractSchoolLocationsFromSchoolRow school else ""
  if s0 ≠ "" then s0
  else if containsSub t "instruktor" then instruktoriHandler t data.instruktori slug
  else
    let wantedKat := normalizeKat userText
    let s2 := if wantedKat ≠ "" ∧ sveInfoTrigger t = true then
        buildCategorySummary wantedKat data else ""
    if s2 ≠ "" then s2
    else
      let s3a := if hakTrigger t then hakLocOut data.lokacije else ""
      if s3a ≠ "" then s3a
      else
        let s3b := if ppTrigger t then ppLocOut data.lokacije else ""
        if s3b ≠ "" then s3b
        else
          let s3c := if lijecTrigger t then lijecLocOut data.lokacije else ""
          if s3c ≠ "" then s3c
          else
            let s3d := if poligonTrigger t then poligonLocOut data.lokacije else ""
            if s3d ≠ "" then s3d
            else
              let s4 := if payTrigger t then payOut data else ""
              if s4 ≠ "" then s4
              else
                let s5 := if vozniTrigger t then vozniOut t wantedKat data else ""
                if s5 ≠ "" then s5 else ""

/-- An ordered chain of keyword-triggered handlers, each a pair of trigger
and produced output: the first handler whose trigger matches and whose output
is non-empty wins. -/
def gatedChain : List (Bool × String) → String
  | [] => ""
  | (trig, out) :: rest => if trig = true ∧ out ≠ "" then out else gatedChain rest

/-- The router as the specification describes it, amended with the one
exception the code actually has: after the school-locations handler, a
message containing `instruktor` is answered by the instructor handler
unconditionally — its output ends the chain even when empty. -/
def extractFactsChain (userText : String) (data : DataBundle) (school : Row)
    (slug : String) : String :=
  let t := softNorm userText
  let wantedKat := normalizeKat userText
  let first := gatedChain [(locTrigger t, extractSchoolLocationsFromSchoolRow school)]
  if first ≠ "" then first
  else if containsSub t "instruktor" then instruktoriHandler t data.instruktori slug
  else gatedChain
    [(decide (wantedKat ≠ "") && sveInfoTrigger t, buildCategorySummary wantedKat data),
     (hakTrigger t, hakLocOut data.lokacije),
     (ppTrigger t, ppLocOut data.lokacije),
     (lijecTrigger t, lijecLocOut data.lokacije),
     (poligonTrigger t, poligonLocOut data.lokacije),
     (payTrigger t, payOut data),
     (vozniTrigger t, vozniOut t wantedKat data)]

/-! ## The `/api/ask` handler

The asynchronous completion call raced against the 20-second timer is
modelled by its outcome: `Except.error e` when the call failed or the timer
fired first (`e` carrying the error message, e.g. `OPENAI_TIMEOUT`),
`Except.ok none` when it succeeded but `choices[0].message.content` was
absent, `Except.ok (some content)` otherwise. -/

/-- HTTP method of a request to `/api/ask` (the route accepts all; the
source distinguishes only GET). -/
inductive Method where
  | get
  | post
  deriving Repr, DecidableEq

/-- A role-tagged chat message. -/
structure ChatMsg where
  role : String
  content : String
  deriving Repr, DecidableEq

/-- The parts of an incoming request the handler reads. -/
structure AskReq where
  method : Method
  queryQ : Option String
  bodyQ : Option String
  bodyMessage : Option String
  bodyHistory : List ChatMsg
  deriving Repr, DecidableEq

/-- `a || b || ''` on two optional body fields. -/
def jsOrOpt (a b : Option String) : String :=
  match a with
  | some v => if v = "" then b.getD "" else v
  | none => b.getD ""

/-- `(req.method === 'GET' ? req.query.q : req.body?.q || req.body?.message) || ''`. -/
def userMessageOf (req : AskReq) : String :=
  match req.method with
  | .get => req.queryQ.getD ""
  | .post => jsOrOpt req.bodyQ req.bodyMessage

/-- `(req.method === 'GET' ? [] : (req.body?.history || [])).slice(-12)`. -/
def historyOf (req : AskReq) : List ChatMsg :=
  match req.method with
  | .get => ([] : List ChatMsg).drop (([] : List ChatMsg).length - 12)
  | .post => req.bodyHistory.drop (req.bodyHistory.length - 12)

/-- The message list sent to the completion API: system prompt, history,
then the user message. -/
def buildMessages (systemPrompt : String) (history : List ChatMsg)
    (userMessage : String) : List ChatMsg :=
  ⟨"system", systemPrompt⟩ ::
    (history.map (fun h => (⟨h.role, h.content⟩ : ChatMsg)) ++
      [⟨"user", userMessage⟩])

/-- The message list the `/api/ask` handler builds for a request, with the
assembled system prompt as a parameter. -/
def askMessages (req : AskReq) (systemPrompt : String) : List ChatMsg :=
  buildMessages systemPrompt (historyOf req) (userMessageOf req)

/-- The timeout passed to `withTimeout` around the completion call. -/
def askTimeoutMs : ℕ := 20000

/-- The response of `/api/ask` as the handler serializes it. -/
structure AskResponse where
  status : ℕ
  ok : Bool
  reply : Option String
  error : Option String
  deriving Repr, DecidableEq

/-- A `res.json(...)` reply (default status 200). -/
def ok200 (r : String) : AskResponse := ⟨200, true, some r, none⟩

/-- The static apologetic message returned when the completion call fails or
times out. -/
def completionFallback : String :=
  "Trenutno ne mogu dohvatiti odgovor. Pokušaj ponovno ili pitaj konkretnije.\n\n(v " ++
    promptVersion ++ ")"

/-- The static message returned when the completion succeeded without usable
content. -/
def emptyReplyFallback : String :=
  "Nažalost, nisam uspio generirati odgovor. Pokušaj ponovno konkretnije.\n\n(v " ++
    promptVersion ++ ")"

/-- The completion step of the handler: the `try`/`catch` around the raced
call and the empty-reply check. -/
def completionRespond (outcome : Except String (Option String)) : AskResponse :=
  match outcome with
  | .error _ => ok200 completionFallback
  | .ok none => ok200 emptyReplyFallback
  | .ok (some content) =>
    let reply := jsTrim content
    if reply = "" ∨ reply = "..." then ok200 emptyReplyFallback
    else ok200 (reply ++ "\n\n(v " ++ promptVersion ++ ")")

/-- The `/api/ask` handler pipeline after the data bundle is fetched:
missing-message check, FAQ short-circuit behind the category/price gate,
fact router, completion call. -/
def askHandler (req : AskReq) (data : DataBundle) (school : Row) (slug : String)
    (outcome : Except String (Option String)) : AskResponse :=
  let userMessage := userMessageOf req
  if userMessage = "" then ⟨400, false, none, some "Missing message (q)"⟩
  else
    let faqAnswer :=
      if isCategoryOrPriceQuery userMessage then ""
      else answerFromFAQ_STRICT userMessage data.faq
    if faqAnswer ≠ "" then ok200 faqAnswer
    else
      let facts := extractFacts userMessage data school slug
      if facts ≠ "" then ok200 (facts ++ "\n\n(v " ++ promptVersion ++ ")")
      else completionRespond outcome

/-! ## Lexicographic ranking used by the FAQ matcher -/

/-- "At most as good": ranked by overlap with Jaccard as tiebreak. -/
def faqLeLex (a b : ℕ × ℚ) : Prop := a.1 < b.1 ∨ (a.1 = b.1 ∧ a.2 ≤ b.2)

/-- What the FAQ matcher returns, as the specification describes it, with
the amendment the code forces: only good matches with overlap at least 1 can
be returned; if every good match has overlap 0, the matcher returns `""`. -/
def FaqReturnsBest (faqRows : List Row) (userText : String) : Prop :=
  let q := softNorm userText
  ((∃ r ∈ faqRows.filter faqActive, faqAns r ≠ "" ∧ ∃ c ∈ faqQList r,
      faqGoodMatch q c = true ∧ 1 ≤ faqOv q c) →
    ∃ r ∈ faqRows.filter faqActive, faqAns r ≠ "" ∧ ∃ c ∈ faqQList r,
      faqGoodMatch q c = true ∧ 1 ≤ faqOv q c ∧
      answerFromFAQ_STRICT userText faqRows = faqAns r ∧
      ∀ r' ∈ faqRows.filter faqActive, faqAns r' ≠ "" → ∀ c' ∈ faqQList r',
        faqGoodMatch q c' = true → faqLeLex (faqOv q c', faqJc q c') (faqOv q c, faqJc q c)) ∧
  ((¬ ∃ r ∈ faqRows.filter faqActive, faqAns r ≠ "" ∧ ∃ c ∈ faqQList r,
      faqGoodMatch q c = true ∧ 1 ≤ faqOv q c) →
    answerFromFAQ_STRICT userText faqRows = "")

/-- Candidate/answer pairs contributed by one FAQ record. -/
def faqRecPairs (r : Row) : List (String × String) :=
  if faqAns r = "" then [] else (faqQList r).map (fun c => (c, faqAns r))

/-- Candidate/answer pairs of the FAQ scan, flattened. -/
def faqPairs (rows : List Row) : List (String × String) :=
  (rows.filter faqActive).flatMap faqRecPairs

/-- One candidate/answer pair step of the flattened FAQ fold. -/
def faqPairStep (q : String) (b : FaqBest) (p : String × String) : FaqBest :=
  faqStep q p.2 b p.1

/-! ## Concrete fixtures for the claim instances -/

/-- Data bundle of the category-B summary test: an hours row, one price row
at `6000 kn`, one exam-fee row, one extra-hour row. -/
def catBData : DataBundle :=
  { kategorije := [[("Kategorija", "B"), ("Broj sati teorija", "30"), ("Broj sati praksa", "35")]],
    cjenik := [[("Kategorija", "B"), ("Varijanta", "Paket B"), ("Cijena", "6000 kn")]],
    hak := [[("Kategorija", "B"), ("Vrsta predmeta", "Teorija"), ("Iznos", "130 €")]],
    dodatne := [[("Kategorija", "B"), ("Naziv usluge", "Dodatni sat vožnje"), ("Iznos", "40 €")]] }

/-- A bundle with no instructors but one vehicle. -/
def vozniOnlyData : DataBundle := { vozni := [[("Naziv vozila", "Golf")]] }

/-- A location record that merely mentions `poligon` in its note field. -/
def locNoteRow : Row := [("Naziv", "Ured"), ("Napomena", "kod nas poligon dostupan")]

/-- A location record whose kind field starts with `poligon`. -/
def locKindRow : Row := [("Tip lokacije", "Poligon Žnjan"), ("Adresa", "Ulica 1")]

/-- FAQ fixture whose only candidate phrase has no word of length three. -/
def faqShortWordsRow : Row := [("Pitanje", "ab cd ef gh"), ("Odgovor", "ANS")]

/-- FAQ fixture for the exact-phrase example of the specification. -/
def faqAdresaRow : Row := [("Pitanje", "Koja je adresa autoškole"), ("Odgovor", "ANS")]

/-! ## Helper lemmas -/

/-- The identity `if v ≠ "" then v else "" = v`. -/
lemma ite_ne_empty_id (v : String) : (if v ≠ "" then v else "") = v := by
  by_cases h : v = "" <;> simp [h]

/-- A "compute gated output, return it if non-empty" step equals a
"trigger and non-empty output" test. -/
lemma gate_step (p : Prop) [Decidable p] (x r : String) :
    (if (if p then x else "") ≠ "" then (if p then x else "") else r) =
      (if p ∧ x ≠ "" then x else r) := by
  by_cases hp : p <;> by_cases hx : x = "" <;> simp [hp, hx]

/-- Character-class evaluation of the pipeline on a lower-case letter. -/
lemma lowOut (m : ℕ) (h1 : 97 ≤ m) (h2 : m ≤ 122) :
    (([Char.ofNat m].filter (fun d => !isMark d)).map
      (fun d => if keepChar d then d else ' ')) = [Char.ofNat m] := by
  interval_cases m <;> decide

/-- The pipeline fixes lower-case letters. -/
lemma lowFix (m : ℕ) (h1 : 97 ≤ m) (h2 : m ≤ 122) :
    charPipe (Char.ofNat m) = [Char.ofNat m] := by
  interval_cases m <;> decide

/-- Every character the pipeline emits is fixed by the pipeline. -/
lemma charPipe_mem : ∀ c d : Char, d ∈ charPipe c → charPipe d = [d] := by
  intro c d hd
  unfold charPipe jsLowerNFD at hd
  by_cases h1 : 65 ≤ c.toNat ∧ c.toNat ≤ 90
  · rw [if_pos h1] at hd
    rw [lowOut (c.toNat + 32) (by omega) (by omega)] at hd
    rw [List.mem_singleton] at hd
    subst hd
    exact lowFix (c.toNat + 32) (by omega) (by omega)
  · rw [if_neg h1] at hd
    by_cases h2 : c.toNat = 0x107 ∨ c.toNat = 0x106
    · rw [if_pos h2] at hd; revert d; decide
    · rw [if_neg h2] at hd
      by_cases h3 : c.toNat = 0x10D ∨ c.toNat = 0x10C
      · rw [if_pos h3] at hd; revert d; decide
      · rw [if_neg h3] at hd
        by_cases h4 : c.toNat = 0x161 ∨ c.toNat = 0x160
        · rw [if_pos h4] at hd; revert d; decide
        · rw [if_neg h4] at hd
          by_cases h5 : c.toNat = 0x17E ∨ c.toNat = 0x17D
          · rw [if_pos h5] at hd; revert d; decide
          · rw [if_neg h5] at hd
            by_cases h6 : c.toNat = 0x111 ∨ c.toNat = 0x110
            · rw [if_pos h6] at hd; revert d; decide
            · rw [if_neg h6] at hd
              by_cases h7 : c.toNat = 0xE1 ∨ c.toNat = 0xC1
              · rw [if_pos h7] at hd; revert d; decide
              · rw [if_neg h7] at hd
                by_cases h8 : c.toNat = 0xE9 ∨ c.toNat = 0xC9
                · rw [if_pos h8] at hd; revert d; decide
                · rw [if_neg h8] at hd
                  by_cases h9 : c.toNat = 0xED ∨ c.toNat = 0xCD
                  · rw [if_pos h9] at hd; revert d; decide
                  · rw [if_neg h9] at hd
                    by_cases h10 : c.toNat = 0xF3 ∨ c.toNat = 0xD3
                    · rw [if_pos h10] at hd; revert d; decide
                    · rw [if_neg h10] at hd
                      by_cases h11 : c.toNat = 0xFA ∨ c.toNat = 0xDA
                      · rw [if_pos h11] at hd; revert d; decide
                      · rw [if_neg h11] at hd
                        by_cases hm : isMark c = true
                        · simp [hm] at hd
                        · by_cases hk : keepChar c = true
                          · simp [hm, hk] at hd
                            subst hd
                            unfold charPipe jsLowerNFD
                            rw [if_neg h1, if_neg h2, if_neg h3, if_neg h4,
                              if_neg h5, if_neg h6, if_neg h7, if_neg h8,
                              if_neg h9, if_neg h10, if_neg h11]
                            simp [hm, hk]
                          · simp [hm, hk] at hd
                            subst hd
                            decide

/-- `splitBy` never returns an empty list of segments. -/
lemma splitBy_ne_nil (p : Char → Bool) (l : List Char) : splitBy p l ≠ [] := by
  induction l with
  | nil => simp [splitBy]
  | cons c rest ih =>
    unfold splitBy
    by_cases h : p c
    · simp [h]
    · rw [if_neg h]
      rcases hs : splitBy p rest with _ | ⟨w, ws⟩
      · simp
      · simp

/-- Characters of a `splitBy` segment do not satisfy the separator predicate
and come from the original list. -/
lemma splitBy_chars (p : Char → Bool) :
    ∀ (l w : List Char) (c : Char),
      w ∈ splitBy p l → c ∈ w → p c = false ∧ c ∈ l := by
  intro l
  induction l with
  | nil =>
    intro w c hw hc
    simp [splitBy] at hw
    subst hw
    simp at hc
  | cons a rest ih =>
    intro w c hw hc
    unfold splitBy at hw
    by_cases h : p a
    · rw [if_pos h] at hw
      rcases List.mem_cons.mp hw with h1 | h1
      · subst h1; simp at hc
      · obtain ⟨h2, h3⟩ := ih w c h1 hc
        exact ⟨h2, List.mem_cons_of_mem _ h3⟩
    · rw [if_neg h] at hw
      rcases hsplit : splitBy p rest with _ | ⟨w0, ws⟩
      · exact absurd hsplit (splitBy_ne_nil p rest)
      · rw [hsplit] at hw
        rcases List.mem_cons.mp hw with h1 | h1
        · subst h1
          rcases List.mem_cons.mp hc with h2 | h2
          · subst h2
            exact ⟨by simpa using h, List.mem_cons_self _ _⟩
          · obtain ⟨h3, h4⟩ :=
              ih w0 c (by rw [hsplit]; exact List.mem_cons_self _ _) h2
            exact ⟨h3, List.mem_cons_of_mem _ h4⟩
        · obtain ⟨h3, h4⟩ :=
            ih w c (by rw [hsplit]; exact List.mem_cons_of_mem _ h1) hc
          exact ⟨h3, List.mem_cons_of_mem _ h4⟩

/-- A separator-free list splits into itself. -/
lemma splitBy_no_sep (p : Char → Bool) :
    ∀ w : List Char, (∀ c ∈ w, p c = false) → splitBy p w = [w] := by
  intro w
  induction w with
  | nil => intro _; rfl
  | cons c rest ih =>
    intro h
    unfold splitBy
    rw [if_neg (by simp [h c (List.mem_cons_self _ _)])]
    rw [ih (fun c hc => h c (List.mem_cons_of_mem _ hc))]

/-- Splitting a separator-free word, a separator, then a tail. -/
lemma splitBy_word_sep (p : Char → Bool) (sep : Char) :
    ∀ (w l : List Char), (∀ c ∈ w, p c = false) → p sep = true →
      splitBy p (w ++ sep :: l) = w :: splitBy p l := by
  intro w
  induction w with
  | nil =>
    intro l _ hs
    simp [splitBy, hs]
  | cons c rest ih =>
    intro l h hs
    have hc : p c = false := h c (List.mem_cons_self _ _)
    show splitBy p (c :: (rest ++ sep :: l)) = (c :: rest) :: splitBy p l
    conv_lhs => unfold splitBy
    rw [if_neg (by simp [hc])]
    rw [ih l (fun c hc => h c (List.mem_cons_of_mem _ hc)) hs]

/-- `wordsOf` is a left inverse of `joinWords` on non-empty,
whitespace-free words. -/
lemma wordsOf_join :
    ∀ ws : List (List Char),
      (∀ w ∈ ws, w ≠ [] ∧ ∀ c ∈ w, isWsChar c = false) →
      wordsOf (joinWords ws) = ws := by
  intro ws
  induction ws with
  | nil => intro _; rfl
  | cons w rest ih =>
    intro h
    cases rest with
    | nil =>
      show wordsOf w = [w]
      unfold wordsOf
      rw [splitBy_no_sep isWsChar w (h w (List.mem_cons_self _ _)).2]
      simp [(h w (List.mem_cons_self _ _)).1]
    | cons w2 rest2 =>
      show wordsOf (w ++ ' ' :: joinWords (w2 :: rest2)) = w :: w2 :: rest2
      unfold wordsOf
      rw [splitBy_word_sep isWsChar ' ' w (joinWords (w2 :: rest2))
        (h w (List.mem_cons_self _ _)).2 (by decide)]
      rw [List.filter_cons]
      rw [if_pos (by simpa using (h w (List.mem_cons_self _ _)).1)]
      have := ih (fun w' hw' => h w' (List.mem_cons_of_mem _ hw'))
      unfold wordsOf at this
      rw [this]

/-- `concatMap` of a function fixing every element is the identity. -/
lemma concatMap_fixed (f : Char → List Char) :
    ∀ l : List Char, (∀ c ∈ l, f c = [c]) → concatMap f l = l := by
  intro l
  induction l with
  | nil => intro _; rfl
  | cons c rest ih =>
    intro h
    show f c ++ concatMap f rest = c :: rest
    rw [h c (List.mem_cons_self _ _), ih (fun c hc => h c (List.mem_cons_of_mem _ hc))]
    rfl

/-- Members of a `concatMap` come from a member's image. -/
lemma mem_concatMap (f : Char → List Char) :
    ∀ (l : List Char) (d : Char), d ∈ concatMap f l → ∃ c ∈ l, d ∈ f c := by
  intro l
  induction l with
  | nil => intro d hd; simp [concatMap] at hd
  | cons c rest ih =>
    intro d hd
    rcases List.mem_append.mp hd with h | h
    · exact ⟨c, List.mem_cons_self _ _, h⟩
    · obtain ⟨c0, hc0, hd0⟩ := ih d h
      exact ⟨c0, List.mem_cons_of_mem _ hc0, hd0⟩

/-- Characters of `joinWords` are spaces or word characters. -/
lemma mem_joinWords :
    ∀ (ws : List (List Char)) (c : Char),
      c ∈ joinWords ws → c = ' ' ∨ ∃ w ∈ ws, c ∈ w := by
  intro ws
  induction ws with
  | nil => intro c hc; simp [joinWords] at hc
  | cons w rest ih =>
    cases rest with
    | nil =>
      intro c hc
      exact Or.inr ⟨w, List.mem_cons_self _ _, hc⟩
    | cons w2 rest2 =>
      intro c hc
      rcases List.mem_append.mp hc with h | h
      · exact Or.inr ⟨w, List.mem_cons_self _ _, h⟩
      · rcases List.mem_cons.mp h with h | h
        · exact Or.inl h
        · rcases ih c h with h | ⟨w', hw', hcw⟩
          · exact Or.inl h
          · exact Or.inr ⟨w', List.mem_cons_of_mem _ hw', hcw⟩

/-- Idempotence of the text normalizer. -/
lemma softNorm_idem_aux : ∀ s : String, softNorm (softNorm s) = softNorm s := by
  intro s
  unfold softNorm
  congr 1
  have hfix : ∀ c ∈ joinWords (wordsOf (concatMap charPipe s.data)),
      charPipe c = [c] := by
    intro c hc
    rcases mem_joinWords _ c hc with h | ⟨w, hw, hcw⟩
    · subst h; decide
    · have hw' : w ∈ splitBy isWsChar (concatMap charPipe s.data) :=
        (List.mem_filter.mp hw).1
      have hcl : c ∈ concatMap charPipe s.data :=
        (splitBy_chars isWsChar _ w c hw' hcw).2
      obtain ⟨c0, _, hc0⟩ := mem_concatMap charPipe s.data c hcl
      exact charPipe_mem c0 c hc0
  rw [show (String.data ⟨joinWords (wordsOf (concatMap charPipe s.data))⟩) =
    joinWords (wordsOf (concatMap charPipe s.data)) from rfl]
  rw [concatMap_fixed charPipe _ hfix]
  have hcond : ∀ w ∈ wordsOf (concatMap charPipe s.data),
      w ≠ [] ∧ ∀ c ∈ w, isWsChar c = false := by
    intro w hw
    refine ⟨by simpa using (List.mem_filter.mp hw).2, ?_⟩
    intro c hc
    exact (splitBy_chars isWsChar _ w c (List.mem_filter.mp hw).1 hc).1
  rw [wordsOf_join _ hcond]

/-! ## C1: the fact-router chain -/

/-- C1 counterexample: on the message `"instruktor vozila"` with an empty
instructor table and a non-empty vehicle table, the fleet handler's trigger
matches and its output is non-empty, yet `extractFacts` returns the empty
string — the instructor handler, once triggered, stops all later handlers
even when it produces nothing. -/
theorem extractFacts_instruktor_blocks :
    extractFacts "instruktor vozila" vozniOnlyData [] "instruktor" = "" ∧
    vozniTrigger (softNorm "instruktor vozila") = true ∧
    vozniOut (softNorm "instruktor vozila") (normalizeKat "instruktor vozila")
        vozniOnlyData = "VOZNI PARK:\n• Golf" := by
  refine ⟨by decide, by decide, by decide⟩

/-- C1 (amended): `extractFacts` evaluates its keyword-triggered handlers in
priority order and returns the first non-empty output, with the one
exception that once the leading school-locations handler has produced
nothing and the message contains `instruktor`, the instructor handler's
output — possibly empty — is returned and no later handler runs. -/
theorem extractFacts_eq_chain (u : String) (data : DataBundle) (school : Row)
    (slug : String) :
    extractFacts u data school slug = extractFactsChain u data school slug := by
  unfold extractFacts extractFactsChain
  simp only [gatedChain, Bool.and_eq_true, decide_eq_true_eq, gate_step,
    and_assoc, and_self]

/-! ## C3: FAQ short-query guard -/

/-- C3: for every FAQ record list and every message whose normalized form
has at most 3 whitespace-separated tokens or fewer than 12 characters, the
FAQ matcher returns the empty string regardless of the FAQ contents; in
particular `matchFaq("cijena", faqs)` is `""` for every `faqs`. -/
theorem answerFromFAQ_short_query_guard :
    (∀ (faqs : List Row) (msg : String), faqShortQuery msg →
      answerFromFAQ_STRICT msg faqs = "") ∧
    ∀ faqs : List Row, answerFromFAQ_STRICT "cijena" faqs = "" := by
  have h1 : ∀ (faqs : List Row) (msg : String), faqShortQuery msg →
      answerFromFAQ_STRICT msg faqs = "" := by
    intro faqs msg h
    unfold answerFromFAQ_STRICT
    by_cases he : faqs.isEmpty
    · rw [if_pos he]
    · rw [if_neg he, if_pos h]
  exact ⟨h1, fun faqs => h1 faqs "cijena" (by with_unfolding_all decide)⟩

/-- C3 witness: the short query `"cijena"` against a FAQ list that would
otherwise match. -/
theorem answerFromFAQ_short_query_guard_witness :
    answerFromFAQ_STRICT "cijena" [[("Pitanje", "cijena"), ("Odgovor", "X")]] = "" :=
  answerFromFAQ_short_query_guard.1 [[("Pitanje", "cijena"), ("Odgovor", "X")]]
    "cijena" (by with_unfolding_all decide)

/-! ## C9: the `BE` substring match -/

/-- C9: `normalizeKat` detects `BE` by a plain substring test: whenever the
normalized uppercase form of the input contains the letter sequence `BE`
anywhere (and none of the `KOD 95`/`CODE 95`/`KOD 96`/`CODE 96` substrings),
the result is `BE` — for example `normalizeKat "benzin" = "BE"`. -/
theorem normalizeKat_BE_substring :
    (∀ s : String,
      containsSub (katKey s) "KOD 95" = false →
      containsSub (katKey s) "CODE 95" = false →
      containsSub (katKey s) "KOD 96" = false →
      containsSub (katKey s) "CODE 96" = false →
      containsSub (katKey s) "BE" = true →
      normalizeKat s = "BE") ∧
    normalizeKat "benzin" = "BE" := by
  refine ⟨?_, by decide⟩
  intro s h1 h2 h3 h4 h5
  have hne : ¬ katKey s = "" := by
    intro h; rw [h] at h5; exact absurd h5 (by decide)
  unfold normalizeKat
  simp [hne, h1, h2, h3, h4, h5]

/-- C9 witness: `"benzin"` contains `BE` after normalization. -/
theorem normalizeKat_BE_substring_witness : normalizeKat "benzin" = "BE" :=
  normalizeKat_BE_substring.1 "benzin" (by decide) (by decide) (by decide)
    (by decide) (by decide)

/-! ## C4: category normalizer -/

/-- C4 counterexample: the input `"obe a2"` has `A2` as its only
word-boundary category token (every other code of the vocabulary fails the
word-boundary test), yet `normalizeKat` returns `"BE"`, not `"A2"`, because
`BE` is matched as a bare substring inside `obe` before the token loop
runs. -/
theorem normalizeKat_A2_counterexample :
    hasTokWB "A2" (katKey "obe a2") = true ∧
    (∀ k ∈ ["AM", "A1", "A", "B", "BE", "KOD 96", "C", "CE", "D", "KOD 95", "F", "G"],
      hasTokWB k (katKey "obe a2") = false) ∧
    normalizeKat "obe a2" = "BE" := by
  refine ⟨by decide, by decide, by decide⟩

/-- C4 (amended): the concrete mappings hold, and word-boundary matching
protects `A2` from the single-letter codes: any input whose only category
token is `A2` (no `AM`/`A1` token) and whose normalized uppercase form
contains none of the substring-matched special codes (`KOD 95`, `CODE 95`,
`KOD 96`, `CODE 96`, `BE`) normalizes to `A2`, never `A`. -/
theorem normalizeKat_spec :
    normalizeKat "Kategorija B" = "B" ∧
    normalizeKat "kod 96" = "KOD 96" ∧
    normalizeKat "xyz" = "" ∧
    ∀ s : String,
      containsSub (katKey s) "KOD 95" = false →
      containsSub (katKey s) "CODE 95" = false →
      containsSub (katKey s) "KOD 96" = false →
      containsSub (katKey s) "CODE 96" = false →
      containsSub (katKey s) "BE" = false →
      hasTokWB "AM" (katKey s) = false →
      hasTokWB "A1" (katKey s) = false →
      hasTokWB "A2" (katKey s) = true →
      normalizeKat s = "A2" := by
  refine ⟨by decide, by decide, by decide, ?_⟩
  intro s h1 h2 h3 h4 h5 h6 h7 h8
  have hne : ¬ katKey s = "" := by
    intro h; rw [h] at h8; exact absurd h8 (by decide)
  unfold normalizeKat
  simp [hne, h1, h2, h3, h4, h5, findTok, h6, h7, h8]

/-- C4 witness: `"imam a2"` satisfies the amended hypotheses and normalizes
to `A2`. -/
theorem normalizeKat_spec_witness : normalizeKat "imam a2" = "A2" :=
  normalizeKat_spec.2.2.2 "imam a2" (by decide) (by decide) (by decide)
    (by decide) (by decide) (by decide) (by decide) (by decide)

/-! ## C8: category summary composition -/

/-- C8: for category `B` with an hours row, one price row of `6000 kn`, one
fee row and one extra-hour row, `buildCategorySummary "b"` contains the
hours, price, fee and extra-hour sections in that fixed order, converts
`6000 kn` with the fixed divisor 7.5345 to `796 €`, and derives the monthly
installment `round(6000/12)` as `500 €/mj`. -/
theorem buildCategorySummary_B_example :
    buildCategorySummary "b" catBData =
      "✅ KATEGORIJA B\n• Sati: Teorija 30h, Praksa 35h\n• Cijene:\n  - Paket B: 796 € (500 €/mj)\n• Ispitne naknade (HAK):\n  - Teorija: 130 €\n• Dodatni sati:\n  - Dodatni sat vožnje: 40 €" ∧
    convertToEuro "6000 kn" = "796 €" ∧
    jsRound ((6000 : ℚ) / (75345 / 10000 : ℚ)) = 796 ∧
    calcMonthlyRate "6000 kn" = "500 €/mj" ∧
    jsRound ((6000 : ℚ) / 12) = 500 := by
  refine ⟨by with_unfolding_all decide, by with_unfolding_all decide,
    by with_unfolding_all decide, by with_unfolding_all decide,
    by with_unfolding_all decide⟩

/-! ## C5: completion failure degrades to a 200 with `ok: true` -/

/-- C5: the completion call runs under a 20000 ms timeout, and for every
request that reaches the completion step (non-empty message, no FAQ
short-circuit, no extracted facts), a failure or timeout of the call is
answered with HTTP 200, `ok: true` and the static apologetic fallback —
never a 5xx and never `ok: false`. -/
theorem askHandler_completion_failure :
    askTimeoutMs = 20000 ∧
    ∀ (req : AskReq) (data : DataBundle) (school : Row) (slug e : String),
      userMessageOf req ≠ "" →
      (isCategoryOrPriceQuery (userMessageOf req) = true ∨
        answerFromFAQ_STRICT (userMessageOf req) data.faq = "") →
      extractFacts (userMessageOf req) data school slug = "" →
      askHandler req data school slug (Except.error e) =
        { status := 200, ok := true, reply := some completionFallback, error := none } := by
  refine ⟨rfl, ?_⟩
  intro req data school slug e hmsg hfaq hfacts
  unfold askHandler
  rw [if_neg hmsg]
  have hfq : (if isCategoryOrPriceQuery (userMessageOf req) then ""
      else answerFromFAQ_STRICT (userMessageOf req) data.faq) = "" := by
    rcases hfaq with h | h
    · simp [h]
    · by_cases hc : isCategoryOrPriceQuery (userMessageOf req) <;> simp [hc, h]
  simp [hfq, hfacts, completionRespond, ok200]

/-- C5 witness: a GET request with the chit-chat message
`"kako ste danas"`, empty tables and a timed-out completion call. -/
theorem askHandler_completion_failure_witness :
    askHandler ⟨Method.get, some "kako ste danas", none, none, []⟩ {} [] "instruktor"
        (Except.error "OPENAI_TIMEOUT") =
      { status := 200, ok := true, reply := some completionFallback, error := none } :=
  askHandler_completion_failure.2 ⟨Method.get, some "kako ste danas", none, none, []⟩
    {} [] "instruktor" "OPENAI_TIMEOUT" (by decide) (Or.inr (by decide)) (by decide)

/-! ## C10: GET requests ignore supplied history -/

/-- C10: for every GET request the message list sent to the completion API
is exactly the system prompt followed by the single user message — whatever
history the client supplied is ignored; only POST bodies contribute history
(truncated to the last 12 entries). -/
theorem askMessages_get_ignores_history :
    (∀ (req : AskReq) (sys : String), req.method = Method.get →
      askMessages req sys =
        [⟨"system", sys⟩, ⟨"user", userMessageOf req⟩]) ∧
    ∀ req : AskReq, req.method = Method.post →
      historyOf req = req.bodyHistory.drop (req.bodyHistory.length - 12) := by
  constructor
  · intro req sys h
    unfold askMessages buildMessages historyOf
    rw [h]
    rfl
  · intro req h
    unfold historyOf
    rw [h]


/-- C10 witness: a GET request carrying a body history entry still produces
only the system prompt and the user message. -/
theorem askMessages_get_ignores_history_witness :
    askMessages ⟨Method.get, some "hej", some "ignored", none, [⟨"user", "old"⟩]⟩ "SYS" =
      [⟨"system", "SYS"⟩, ⟨"user", "hej"⟩] :=
  askMessages_get_ignores_history.1
    ⟨Method.get, some "hej", some "ignored", none, [⟨"user", "old"⟩]⟩ "SYS" rfl

/-! ## C7: the text normalizer -/

/-- C7: the text normalizer is a total pure function, idempotent
(`normalize(normalize(x)) == normalize(x)` for every string), and case- and
diacritic-insensitive on the defined accented-letter set:
`normalize("Poligon") == normalize("POLIGON") == normalize("polígon")`. -/
theorem softNorm_idempotent_insensitive :
    (∀ x : String, softNorm (softNorm x) = softNorm x) ∧
    softNorm "Poligon" = softNorm "POLIGON" ∧
    softNorm "POLIGON" = softNorm "polígon" :=
  ⟨softNorm_idem_aux, by decide, by decide⟩

/-! ## C6: the best-location matcher -/

/-- The best-location fold keeps the accumulator when nothing beats it, and
otherwise lands on a strictly better element dominating the traversed
list. -/
lemma bestLoc_fold (keys : List String) :
    ∀ (l : List Row) (b : Option Row) (s : ℤ),
      (l.foldl (bestLocStep keys) (b, s) = (b, s) ∧
        ∀ r ∈ l, (locScore keys r : ℤ) ≤ s) ∨
      (∃ r ∈ l, l.foldl (bestLocStep keys) (b, s) = (some r, (locScore keys r : ℤ)) ∧
        s < (locScore keys r : ℤ) ∧
        ∀ r' ∈ l, (locScore keys r' : ℤ) ≤ (locScore keys r : ℤ)) := by
  intro l
  induction l with
  | nil => intro b s; left; exact ⟨rfl, by simp⟩
  | cons r0 rest ih =>
    intro b s
    rw [List.foldl_cons]
    by_cases h : s < (locScore keys r0 : ℤ)
    · have hstep : bestLocStep keys (b, s) r0 = (some r0, (locScore keys r0 : ℤ)) := by
        unfold bestLocStep; rw [if_pos h]
      rw [hstep]
      rcases ih (some r0) (locScore keys r0) with ⟨ha, hb⟩ | ⟨r, hr, ha, hb, hc⟩
      · right
        refine ⟨r0, List.mem_cons_self _ _, ha, h, ?_⟩
        intro r' hr'
        rcases List.mem_cons.mp hr' with h1 | h1
        · subst h1; exact le_refl _
        · exact hb r' h1
      · right
        refine ⟨r, List.mem_cons_of_mem _ hr, ha, lt_trans h hb, ?_⟩
        intro r' hr'
        rcases List.mem_cons.mp hr' with h1 | h1
        · subst h1; exact le_of_lt hb
        · exact hc r' h1
    · have hstep : bestLocStep keys (b, s) r0 = (b, s) := by
        unfold bestLocStep; rw [if_neg h]
      rw [hstep]
      rcases ih b s with ⟨ha, hb⟩ | ⟨r, hr, ha, hb, hc⟩
      · left
        refine ⟨ha, ?_⟩
        intro r' hr'
        rcases List.mem_cons.mp hr' with h1 | h1
        · subst h1; exact le_of_not_lt h
        · exact hb r' h1
      · right
        refine ⟨r, List.mem_cons_of_mem _ hr, ha, hb, ?_⟩
        intro r' hr'
        rcases List.mem_cons.mp hr' with h1 | h1
        · subst h1; exact le_trans (le_of_not_lt h) (le_of_lt hb)
        · exact hc r' h1

/-- C6: `findBestLocation` scores each record +2 per keyword contained in
its normalized haystack plus +2 per keyword its location-kind field starts
with, returns a highest-scoring record exactly when the best score is
positive and `null` otherwise; consequently of the two fixture records, the
one whose kind field starts with `poligon` is selected over the one that
merely mentions `poligon` in a note, in either order. -/
theorem findBestLocation_spec :
    (∀ (rows : List Row) (keys : List String) (r : Row),
      findBestLocation rows keys = some r →
      r ∈ rows ∧ 0 < locScore (keys.map softNorm) r ∧
        ∀ r' ∈ rows, locScore (keys.map softNorm) r' ≤ locScore (keys.map softNorm) r) ∧
    (∀ (rows : List Row) (keys : List String),
      findBestLocation rows keys = none →
      ∀ r ∈ rows, locScore (keys.map softNorm) r = 0) ∧
    findBestLocation [locNoteRow, locKindRow] ["poligon", "vježbali", "vjezbali"] =
      some locKindRow ∧
    findBestLocation [locKindRow, locNoteRow] ["poligon", "vježbali", "vjezbali"] =
      some locKindRow ∧
    startsWithSub (locTypeOfRow locKindRow) "poligon" = true ∧
    startsWithSub (locTypeOfRow locNoteRow) "poligon" = false ∧
    containsSub (locHay locNoteRow) "poligon" = true := by
  refine ⟨?_, ?_, by decide, by decide, by decide, by decide, by decide⟩
  · intro rows keys r h
    unfold findBestLocation at h
    by_cases he : rows.isEmpty
    · rw [if_pos he] at h; exact absurd h (by simp)
    · rw [if_neg he] at h
      rcases bestLoc_fold (keys.map softNorm) rows none (-1) with ⟨ha, _⟩ |
        ⟨r0, hr0, ha, _, hc⟩
      · rw [ha] at h; simp at h
      · rw [ha] at h
        dsimp only at h
        by_cases hpos : (0 : ℤ) < (locScore (keys.map softNorm) r0 : ℤ)
        · rw [if_pos hpos] at h
          rw [Option.some.injEq] at h
          subst h
          refine ⟨hr0, by exact_mod_cast hpos, ?_⟩
          intro r' hr'
          exact_mod_cast hc r' hr'
        · rw [if_neg hpos] at h; simp at h
  · intro rows keys h
    unfold findBestLocation at h
    by_cases he : rows.isEmpty
    · intro r hr
      rw [List.isEmpty_iff] at he
      subst he
      simp at hr
    · rw [if_neg he] at h
      rcases bestLoc_fold (keys.map softNorm) rows none (-1) with ⟨_, hb⟩ |
        ⟨r0, hr0, ha, _, hc⟩
      · intro r hr
        have h1 := hb r hr
        have h2 : (0 : ℤ) ≤ (locScore (keys.map softNorm) r : ℤ) := by positivity
        omega
      · rw [ha] at h
        dsimp only at h
        by_cases hpos : (0 : ℤ) < (locScore (keys.map softNorm) r0 : ℤ)
        · rw [if_pos hpos] at h; simp at h
        · intro r hr
          have h1 := hc r hr
          omega

/-- C6 witness: the first clause applied to the two-record fixture. -/
theorem findBestLocation_spec_witness :
    locKindRow ∈ [locNoteRow, locKindRow] ∧
    0 < locScore (["poligon", "vježbali", "vjezbali"].map softNorm) locKindRow ∧
    ∀ r' ∈ [locNoteRow, locKindRow],
      locScore (["poligon", "vježbali", "vjezbali"].map softNorm) r' ≤
        locScore (["poligon", "vježbali", "vjezbali"].map softNorm) locKindRow :=
  findBestLocation_spec.1 [locNoteRow, locKindRow] ["poligon", "vježbali", "vjezbali"]
    locKindRow (by decide)

/-! ## C2: the FAQ matcher returns the best good match -/

/-- Zero overlap forces a zero Jaccard index. -/
lemma faqJc_zero (q c : String) (h : faqOv q c = 0) : faqJc q c = 0 := by
  unfold faqOv at h
  unfold faqJc
  unfold overlapScore at h ⊢
  dsimp only at h ⊢
  rw [h]
  split
  · rfl
  · simp

/-- Failing the improvement test means being at most as good. -/
lemma lex_le_of_not_beats {s ov : ℕ} {j jc : ℚ}
    (hne : ¬(s < ov ∨ (ov = s ∧ j < jc))) : faqLeLex (ov, jc) (s, j) := by
  push_neg at hne
  obtain ⟨h1, h2⟩ := hne
  rcases Nat.lt_or_ge ov s with h | h
  · exact Or.inl h
  · have he : ov = s := le_antisymm h1 h
    exact Or.inr ⟨he, h2 he⟩

/-- `faqLeLex` absorbs a strict improvement on the right. -/
lemma lex_le_trans_beats {a : ℕ × ℚ} {s o : ℕ} {j jc : ℚ}
    (h1 : faqLeLex a (s, j)) (h2 : s < o ∨ (o = s ∧ j < jc)) :
    faqLeLex a (o, jc) := by
  rcases h1 with h1 | ⟨h1e, h1le⟩ <;> rcases h2 with h2 | ⟨h2e, h2lt⟩
  · exact Or.inl (lt_trans h1 h2)
  · exact Or.inl (by omega)
  · exact Or.inl (by omega)
  · exact Or.inr ⟨by omega, le_trans h1le (le_of_lt h2lt)⟩

/-- Strict improvements compose. -/
lemma beats_trans {s o o2 : ℕ} {j jc jc2 : ℚ}
    (h1 : s < o ∨ (o = s ∧ j < jc)) (h2 : o < o2 ∨ (o2 = o ∧ jc < jc2)) :
    s < o2 ∨ (o2 = s ∧ j < jc2) := by
  rcases h1 with h1 | ⟨h1e, h1lt⟩ <;> rcases h2 with h2 | ⟨h2e, h2lt⟩
  · exact Or.inl (lt_trans h1 h2)
  · exact Or.inl (by omega)
  · exact Or.inl (by omega)
  · exact Or.inr ⟨by omega, lt_trans h1lt h2lt⟩

/-- The record-level FAQ fold equals the flattened candidate/answer fold. -/
lemma faqScan_eq_pairs (q : String) :
    ∀ (l : List Row) (b : FaqBest),
      l.foldl (faqScanRow q) b = (l.flatMap faqRecPairs).foldl (faqPairStep q) b := by
  intro l
  induction l with
  | nil => intro b; rfl
  | cons r rest ih =>
    intro b
    rw [List.foldl_cons, List.flatMap_cons, List.foldl_append, ih]
    congr 1
    unfold faqScanRow faqRecPairs
    by_cases hans : faqAns r = ""
    · rw [if_pos hans, if_pos hans]
      rfl
    · rw [if_neg hans, if_neg hans, List.foldl_map]
      rfl

/-- Membership in the flattened candidate/answer pairs. -/
lemma mem_faqPairs (rows : List Row) (p : String × String) :
    p ∈ faqPairs rows ↔
      ∃ r ∈ rows.filter faqActive,
        faqAns r ≠ "" ∧ p.1 ∈ faqQList r ∧ p.2 = faqAns r := by
  unfold faqPairs
  rw [List.mem_flatMap]
  constructor
  · rintro ⟨r, hr, hp⟩
    unfold faqRecPairs at hp
    by_cases hans : faqAns r = ""
    · rw [if_pos hans] at hp; simp at hp
    · rw [if_neg hans, List.mem_map] at hp
      obtain ⟨c, hc, hceq⟩ := hp
      subst hceq
      exact ⟨r, hr, hans, hc, rfl⟩
  · rintro ⟨r, hr, hans, hc, hp2⟩
    refine ⟨r, hr, ?_⟩
    unfold faqRecPairs
    rw [if_neg hans, List.mem_map]
    exact ⟨p.1, hc, by cases p; simp_all⟩

/-- The flattened FAQ fold either keeps the accumulator — every good
candidate seen being at most as good — or lands on a good candidate that
strictly improves on the accumulator and dominates the list. -/
lemma faqFold_spec (q : String) :
    ∀ (l : List (String × String)) (b : FaqBest),
      (l.foldl (faqPairStep q) b = b ∧
        ∀ p ∈ l, faqGoodMatch q p.1 = true →
          faqLeLex (faqOv q p.1, faqJc q p.1) (b.score, b.jaccard)) ∨
      (∃ p ∈ l, faqGoodMatch q p.1 = true ∧
        l.foldl (faqPairStep q) b = ⟨faqOv q p.1, faqJc q p.1, p.2⟩ ∧
        (b.score < faqOv q p.1 ∨
          (faqOv q p.1 = b.score ∧ b.jaccard < faqJc q p.1)) ∧
        ∀ p' ∈ l, faqGoodMatch q p'.1 = true →
          faqLeLex (faqOv q p'.1, faqJc q p'.1) (faqOv q p.1, faqJc q p.1)) := by
  intro l
  induction l with
  | nil => intro b; left; exact ⟨rfl, by simp⟩
  | cons p0 rest ih =>
    intro b
    rw [List.foldl_cons]
    by_cases hC : faqGoodMatch q p0.1 = true ∧
        (b.score < faqOv q p0.1 ∨
          (faqOv q p0.1 = b.score ∧ b.jaccard < faqJc q p0.1))
    · have hstep : faqPairStep q b p0 = ⟨faqOv q p0.1, faqJc q p0.1, p0.2⟩ := by
        unfold faqPairStep faqStep
        rw [if_pos hC]
      rw [hstep]
      rcases ih ⟨faqOv q p0.1, faqJc q p0.1, p0.2⟩ with ⟨ha, hb⟩ | ⟨pr, hpr, hgr, ha, hbr, hdr⟩
      · right
        dsimp only at hb
        refine ⟨p0, List.mem_cons_self _ _, hC.1, ha, hC.2, ?_⟩
        intro p' hp' hg'
        rcases List.mem_cons.mp hp' with h1 | h1
        · subst h1; exact Or.inr ⟨rfl, le_refl _⟩
        · exact hb p' h1 hg'
      · right
        dsimp only at hbr
        refine ⟨pr, List.mem_cons_of_mem _ hpr, hgr, ha,
          beats_trans hC.2 hbr, ?_⟩
        intro p' hp' hg'
        rcases List.mem_cons.mp hp' with h1 | h1
        · subst h1
          rcases hbr with h2 | ⟨h2e, h2lt⟩
          · exact Or.inl h2
          · exact Or.inr ⟨h2e.symm, le_of_lt h2lt⟩
        · exact hdr p' h1 hg'
    · have hstep : faqPairStep q b p0 = b := by
        unfold faqPairStep faqStep
        rw [if_neg hC]
      rw [hstep]
      rcases ih b with ⟨ha, hb⟩ | ⟨pr, hpr, hgr, ha, hbr, hdr⟩
      · left
        refine ⟨ha, ?_⟩
        intro p' hp' hg'
        rcases List.mem_cons.mp hp' with h1 | h1
        · subst h1
          have hnb : ¬(b.score < faqOv q p'.1 ∨
              (faqOv q p'.1 = b.score ∧ b.jaccard < faqJc q p'.1)) := by
            intro hcon; exact hC ⟨hg', hcon⟩
          exact lex_le_of_not_beats hnb
        · exact hb p' h1 hg'
      · right
        refine ⟨pr, List.mem_cons_of_mem _ hpr, hgr, ha, hbr, ?_⟩
        intro p' hp' hg'
        rcases List.mem_cons.mp hp' with h1 | h1
        · subst h1
          have hnb : ¬(b.score < faqOv q p'.1 ∨
              (faqOv q p'.1 = b.score ∧ b.jaccard < faqJc q p'.1)) := by
            intro hcon; exact hC ⟨hg', hcon⟩
          exact lex_le_trans_beats (lex_le_of_not_beats hnb) hbr
        · exact hdr p' h1 hg'

/-- A strict improvement over the initial best forces overlap at least 1. -/
lemma beats_init_overlap {q c : String}
    (h : faqInit.score < faqOv q c ∨
      (faqOv q c = faqInit.score ∧ faqInit.jaccard < faqJc q c)) :
    1 ≤ faqOv q c := by
  rcases h with h | ⟨he, hlt⟩
  · exact h
  · rw [faqJc_zero q c he] at hlt
    exact absurd hlt (by simp [faqInit])

/-- C2 counterexample: the query `"ab cd ef gh ij kl"` passes the
short-query guard, the active record's candidate `"ab cd ef gh"` is a good
match (almost-exact containment), yet the matcher returns `""` and not the
record's answer `"ANS"`: every shared word is shorter than three characters,
so the overlap is 0 and the zero-score best is never returned. -/
theorem answerFromFAQ_goodmatch_counterexample :
    ¬ faqShortQuery "ab cd ef gh ij kl" ∧
    faqActive faqShortWordsRow = true ∧
    faqAns faqShortWordsRow = "ANS" ∧
    "ab cd ef gh" ∈ faqQList faqShortWordsRow ∧
    faqGoodMatch (softNorm "ab cd ef gh ij kl") "ab cd ef gh" = true ∧
    faqOv (softNorm "ab cd ef gh ij kl") "ab cd ef gh" = 0 ∧
    answerFromFAQ_STRICT "ab cd ef gh ij kl" [faqShortWordsRow] = "" := by
  refine ⟨by with_unfolding_all decide, by decide, by decide, by decide,
    by with_unfolding_all decide, by decide, by with_unfolding_all decide⟩

/-- C2 (amended): for every FAQ record list and query that passes the
short-query guard, if some candidate phrase of an active record with a
non-empty answer is a good match with word-overlap at least 1, the matcher
returns the answer of a best such candidate, ranked by overlap with Jaccard
as tiebreak; otherwise — in particular when every good match has zero
overlap — it returns the empty string. -/
theorem answerFromFAQ_best_match :
    ∀ (faqRows : List Row) (userText : String),
      ¬ faqShortQuery userText → FaqReturnsBest faqRows userText := by
  intro faqRows userText hguard
  unfold FaqReturnsBest
  constructor
  · rintro ⟨r, hr, hans, c, hc, hgood, hov⟩
    have hne : faqRows.isEmpty = false := by
      rcases faqRows with _ | ⟨r0, rest⟩
      · simp at hr
      · rfl
    have hresult : answerFromFAQ_STRICT userText faqRows =
        (if ((faqRows.filter faqActive).foldl (faqScanRow (softNorm userText))
            faqInit).score ≠ 0 then
          ((faqRows.filter faqActive).foldl (faqScanRow (softNorm userText))
            faqInit).ans
        else "") := by
      unfold answerFromFAQ_STRICT
      rw [if_neg (by simp [hne]), if_neg hguard]
    rw [faqScan_eq_pairs (softNorm userText) _ faqInit] at hresult
    rw [show ((faqRows.filter faqActive).flatMap faqRecPairs) = faqPairs faqRows
      from rfl] at hresult
    rcases faqFold_spec (softNorm userText) (faqPairs faqRows) faqInit with
      ⟨_, hall⟩ | ⟨p0, hp0, hg0, heq, hbeat, hdom⟩
    · have hmem : ((c, faqAns r) : String × String) ∈ faqPairs faqRows :=
        (mem_faqPairs faqRows (c, faqAns r)).mpr ⟨r, hr, hans, hc, rfl⟩
      have := hall (c, faqAns r) hmem hgood
      rcases this with h | ⟨he, _⟩
      · exact absurd h (by simp [faqInit])
      · have he' : faqOv (softNorm userText) c = 0 := by simpa [faqInit] using he
        omega
    · have hov0 : 1 ≤ faqOv (softNorm userText) p0.1 := beats_init_overlap hbeat
      obtain ⟨r0, hr0, hans0, hc0, hp02⟩ := (mem_faqPairs faqRows p0).mp hp0
      refine ⟨r0, hr0, hans0, p0.1, hc0, hg0, hov0, ?_, ?_⟩
      · rw [hresult, heq]
        rw [if_pos (by simpa using by omega : (⟨faqOv (softNorm userText) p0.1,
            faqJc (softNorm userText) p0.1, p0.2⟩ : FaqBest).score ≠ 0)]
        exact hp02
      · intro r' hr' hans' c' hc' hg'
        have hmem' : ((c', faqAns r') : String × String) ∈ faqPairs faqRows :=
          (mem_faqPairs faqRows (c', faqAns r')).mpr ⟨r', hr', hans', hc', rfl⟩
        exact hdom (c', faqAns r') hmem' hg'
  · intro hnone
    by_cases hne : faqRows.isEmpty
    · unfold answerFromFAQ_STRICT
      rw [if_pos hne]
    · have hresult : answerFromFAQ_STRICT userText faqRows =
          (if ((faqRows.filter faqActive).foldl (faqScanRow (softNorm userText))
              faqInit).score ≠ 0 then
            ((faqRows.filter faqActive).foldl (faqScanRow (softNorm userText))
              faqInit).ans
          else "") := by
        unfold answerFromFAQ_STRICT
        rw [if_neg hne, if_neg hguard]
      rw [faqScan_eq_pairs (softNorm userText) _ faqInit] at hresult
      rw [show ((faqRows.filter faqActive).flatMap faqRecPairs) = faqPairs faqRows
        from rfl] at hresult
      rcases faqFold_spec (softNorm userText) (faqPairs faqRows) faqInit with
        ⟨heq, _⟩ | ⟨p0, hp0, hg0, heq, hbeat, _⟩
      · rw [hresult, heq]
        rw [if_neg (by simp [faqInit])]
      · exfalso
        have hov0 : 1 ≤ faqOv (softNorm userText) p0.1 := beats_init_overlap hbeat
        obtain ⟨r0, hr0, hans0, hc0, _⟩ := (mem_faqPairs faqRows p0).mp hp0
        exact hnone ⟨r0, hr0, hans0, p0.1, hc0, hg0, hov0⟩

/-- C2 witness: the specification's exact-phrase example, a FAQ record for
`"Koja je adresa autoškole"` queried with the same sentence. -/
theorem answerFromFAQ_best_match_witness :
    FaqReturnsBest [faqAdresaRow] "Koja je adresa autoškole" :=
  answerFromFAQ_best_match [faqAdresaRow] "Koja je adresa autoškole"
    (by with_unfolding_all decide)

end Testigo
